import Mathlib

/-!
Verification of the Strato `Jit32` core bridge (`app/src/main/cpp/skyline/jit/jit32.cpp`):
guest memory accessor, register context model, syscall dispatcher, halt-reason
handling and the execution driver, shallowly embedded over `Nat`.
-/

namespace Strato

/-! ## Guest memory accessor

The guest memory window (`state.process->memory.base`) is a flat, byte-addressed
host region; one `Nat` per byte address. The host is little-endian, so both the
array-indexed aligned path (`base.cast<T>()[vaddr >> bits]`) and the `memcpy`
unaligned path assemble multi-byte values in little-endian byte order. -/

/-- A flat byte view of the guest memory window: one cell per byte address. -/
abbrev Mem := Nat → Nat

/-- Assemble `n` consecutive bytes starting at `addr` into one value,
little-endian: the byte at `addr` is least significant. -/
def readBytesLE (mem : Mem) (addr : Nat) : Nat → Nat
  | 0 => 0
  | n + 1 => mem addr + 256 * readBytesLE mem (addr + 1) n

/-- Overwrite the single byte at address `a` with `b`. -/
def setByte (mem : Mem) (a b : Nat) : Mem :=
  fun x => if x = a then b else mem x

/-- Store the `n` little-endian bytes of `v` at `addr, addr+1, …, addr+n-1`. -/
def writeBytesLE (mem : Mem) (addr : Nat) : Nat → Nat → Mem
  | 0, _ => mem
  | n + 1, v => writeBytesLE (setByte mem addr (v % 256)) (addr + 1) n (v / 256)

/-- Source `ReadUnaligned<T>` (jit32.cpp): `std::memcpy(&value, ptr, sizeof(T))`, a raw
byte-range copy of `sz` bytes at the host address for `vaddr`, with no alignment
assumption; on the little-endian host this is the little-endian assembly. -/
def ReadUnaligned (mem : Mem) (vaddr sz : Nat) : Nat :=
  readBytesLE mem vaddr sz

/-- Source `WriteUnaligned<T>` (jit32.cpp): `std::memcpy(ptr, &value, sizeof(T))`. -/
def WriteUnaligned (mem : Mem) (vaddr sz v : Nat) : Mem :=
  writeBytesLE mem vaddr sz v

/-- The aligned path's array indexing `base.cast<T>()[idx]`: element `idx` of the
window viewed as an array of `2^bits`-byte elements, i.e. the `2^bits` bytes at
byte offset `idx * 2^bits`. -/
def alignedIndexRead (mem : Mem) (bits idx : Nat) : Nat :=
  readBytesLE mem (idx * 2 ^ bits) (2 ^ bits)

/-- The aligned path's array store `base.cast<T>()[idx] = value`. -/
def alignedIndexWrite (mem : Mem) (bits idx v : Nat) : Mem :=
  writeBytesLE mem (idx * 2 ^ bits) (2 ^ bits) v

/-- Source `Jit32::MemoryRead<T>` (jit32.cpp): `bits = bit_width(sizeof T) - 1` is the
log2 of the element size in bytes (0, 1, 2, 3 for the four widths), and
`mask = (1 << bits) - 1`. If `vaddr & mask == 0` the access is naturally aligned
and the window is indexed as an array of `T` at `vaddr >> bits`; otherwise the
unaligned byte-copy fallback reads `sizeof T` bytes at `vaddr`. -/
def MemoryRead (mem : Mem) (bits vaddr : Nat) : Nat :=
  if vaddr &&& (1 <<< bits - 1) = 0 then
    alignedIndexRead mem bits (vaddr >>> bits)
  else
    ReadUnaligned mem vaddr (2 ^ bits)

/-- Source `Jit32::MemoryWrite<T>` (jit32.cpp): same branch structure as `MemoryRead`. -/
def MemoryWrite (mem : Mem) (bits vaddr v : Nat) : Mem :=
  if vaddr &&& (1 <<< bits - 1) = 0 then
    alignedIndexWrite mem bits (vaddr >>> bits) v
  else
    WriteUnaligned mem vaddr (2 ^ bits) v

/-- Source `Jit32::MemoryRead8`. -/
def MemoryRead8 (mem : Mem) (vaddr : Nat) : Nat := MemoryRead mem 0 vaddr

/-- Source `Jit32::MemoryRead16`. -/
def MemoryRead16 (mem : Mem) (vaddr : Nat) : Nat := MemoryRead mem 1 vaddr

/-- Source `Jit32::MemoryRead32`. -/
def MemoryRead32 (mem : Mem) (vaddr : Nat) : Nat := MemoryRead mem 2 vaddr

/-- Source `Jit32::MemoryRead64`. -/
def MemoryRead64 (mem : Mem) (vaddr : Nat) : Nat := MemoryRead mem 3 vaddr

/-- Source `Jit32::MemoryWrite8`. -/
def MemoryWrite8 (mem : Mem) (vaddr v : Nat) : Mem := MemoryWrite mem 0 vaddr v

/-- Source `Jit32::MemoryWrite16`. -/
def MemoryWrite16 (mem : Mem) (vaddr v : Nat) : Mem := MemoryWrite mem 1 vaddr v

/-- Source `Jit32::MemoryWrite32`. -/
def MemoryWrite32 (mem : Mem) (vaddr v : Nat) : Mem := MemoryWrite mem 2 vaddr v

/-- Source `Jit32::MemoryWrite64`. -/
def MemoryWrite64 (mem : Mem) (vaddr v : Nat) : Mem := MemoryWrite mem 3 vaddr v

/-- Bytes strictly below the written range are untouched by `writeBytesLE`. -/
theorem writeBytesLE_lt : ∀ (n : Nat) (mem : Mem) (addr v a : Nat), a < addr →
    writeBytesLE mem addr n v a = mem a
  | 0, _, _, _, _, _ => rfl
  | n + 1, mem, addr, v, a, h => by
    show writeBytesLE (setByte mem addr (v % 256)) (addr + 1) n (v / 256) a = mem a
    rw [writeBytesLE_lt n _ _ _ _ (Nat.lt_succ_of_lt h)]
    simp [setByte, Nat.ne_of_lt h]

/-- Reading back the range just written recovers the value modulo `256 ^ n`. -/
theorem readBytesLE_writeBytesLE : ∀ (n : Nat) (mem : Mem) (addr v : Nat),
    readBytesLE (writeBytesLE mem addr n v) addr n = v % 256 ^ n
  | 0, _, _, _ => by simp [readBytesLE, writeBytesLE, Nat.mod_one]
  | n + 1, mem, addr, v => by
    show readBytesLE (writeBytesLE (setByte mem addr (v % 256)) (addr + 1) n (v / 256))
        addr (n + 1) = v % 256 ^ (n + 1)
    rw [readBytesLE]
    rw [writeBytesLE_lt n _ _ _ addr (Nat.lt_succ_self addr)]
    rw [readBytesLE_writeBytesLE n _ _ _]
    rw [pow_succ', Nat.mod_mul]
    simp [setByte]

/-- When `vaddr` passes the alignment test `vaddr &&& ((1 <<< bits) - 1) = 0`,
the aligned path's element address `(vaddr >>> bits) * 2^bits` is `vaddr` itself. -/
theorem aligned_addr_eq (vaddr bits : Nat) (h : vaddr &&& (1 <<< bits - 1) = 0) :
    vaddr >>> bits * 2 ^ bits = vaddr := by
  rw [Nat.shiftLeft_eq, one_mul, Nat.and_pow_two_sub_one_eq_mod] at h
  rw [Nat.shiftRight_eq_div_pow]
  exact Nat.div_mul_cancel (Nat.dvd_of_mod_eq_zero h)

/-! ## Halt-reason state machine

`HaltReason` and `ToDynarmicHaltReason` are declared in `jit32.h`, and the
engine-native bitmask lives inside the translation engine; neither is part of
the shown source, so both are modelled from the spec. -/

/-- Modelled from the spec: the closed set of abstract halt reasons (§3) —
syscall requested, single step, user-requested pause, breakpoint/watchpoint,
unrecoverable fault, and other engine-defined reasons. `HaltReason` itself is
declared in `jit32.h`, which is not among the shown sources. -/
inductive HaltReason
  | Svc
  | Step
  | UserPause
  | Breakpoint
  | Fault
  | Other
deriving DecidableEq, Repr, Fintype

/-- Modelled from the spec: the engine-native halt bitmask, viewed bit by bit —
one flag per abstract reason, since the abstract-reason ↔ bitmask mapping is
lossless in both directions (§3). -/
abbrev HaltMask := HaltReason → Bool

/-- Modelled from the spec: `RequestHalt(r)` / `Jit32::HaltExecution` ORs the
bit(s) corresponding to `r` into the engine's reason bitmask (§4.3). -/
def requestHalt (r : HaltReason) (m : HaltMask) : HaltMask :=
  fun x => if x = r then true else m x

/-- Modelled from the spec: `Jit32::ClearHalt` removes exactly the bit(s)
corresponding to `r` from the reason bitmask, leaving other pending reasons
intact (§4.3). -/
def clearHalt (r : HaltReason) (m : HaltMask) : HaltMask :=
  fun x => if x = r then false else m x

/-! ## Register context model -/

/-- The translation engine's live per-core state as the bridge sees it:
`jit.Regs()` (16 × u32 general registers), `jit.ExtRegs()` (64 × u32 extended
registers), `jit.Cpsr()`, `jit.Fpscr()`, and the engine's halt-reason bitmask. -/
structure JitState where
  regs : Fin 16 → Nat
  extRegs : Fin 64 → Nat
  cpsr : Nat
  fpscr : Nat
  haltMask : HaltMask

/-- Source `ThreadContext32` (declared in a header outside the shown source; its four
fields `gpr`, `fpr`, `cpsr`, `fpscr` are evident from `Jit32::SaveContext`). -/
structure ThreadContext32 where
  gpr : Fin 16 → Nat
  fpr : Fin 64 → Nat
  cpsr : Nat
  fpscr : Nat

/-- Source `Jit32::SaveContext`: copies the engine's general registers, extended
registers, CPSR and FPSCR into the snapshot, verbatim. -/
def SaveContext (s : JitState) : ThreadContext32 :=
  { gpr := s.regs, fpr := s.extRegs, cpsr := s.cpsr, fpscr := s.fpscr }

/-- Source `Jit32::RestoreContext`: writes the snapshot's four fields back into the
engine's live state. -/
def RestoreContext (ctx : ThreadContext32) (s : JitState) : JitState :=
  { s with regs := ctx.gpr, extRegs := ctx.fpr, cpsr := ctx.cpsr, fpscr := ctx.fpscr }

/-- Source `Jit32::GetPC`: `jit.Regs()[15]`. -/
def GetPC (s : JitState) : Nat := s.regs 15

/-- Source `Jit32::SetPC`: `jit.Regs()[15] = pc`. -/
def SetPC (pc : Nat) (s : JitState) : JitState :=
  { s with regs := Function.update s.regs 15 pc }

/-- Source `Jit32::GetSP`: `jit.Regs()[13]`. -/
def GetSP (s : JitState) : Nat := s.regs 13

/-- Source `Jit32::SetSP`: `jit.Regs()[13] = sp`. -/
def SetSP (sp : Nat) (s : JitState) : JitState :=
  { s with regs := Function.update s.regs 13 sp }

/-- Source `Jit32::GetRegister`: `jit.Regs()[reg]`. -/
def GetRegister (s : JitState) (reg : Fin 16) : Nat := s.regs reg

/-- Source `Jit32::SetRegister`: `jit.Regs()[reg] = value`. -/
def SetRegister (reg : Fin 16) (v : Nat) (s : JitState) : JitState :=
  { s with regs := Function.update s.regs reg v }

/-! ## Syscall dispatcher -/

/-- Modelled from the spec: `kernel::svc::SvcContext` (declared in
`kernel/svc.h`, not among the shown sources) — the syscall convention's 64-bit
register window; its slot count equals the guest's full general-purpose
register count, 16 (§4.4). Slots hold u64 values. -/
structure SvcContext where
  regs : Fin 16 → Nat

/-- Modelled from the spec: the syscall table maps a syscall number to its
handler when one is populated (`kernel::svc::SvcTable`, declared outside the
shown sources); an out-of-range or unpopulated entry is a well-defined empty
lookup (§3). The handler mutates its register window in place, modelled as a
window-to-window function; its effects on shared process/device state are out
of this core's scope. -/
abbrev SvcTable := Nat → Option (SvcContext → SvcContext)

/-- Source `Jit32::MakeSvcContext`: each of the 16 guest u32 registers is widened into
the corresponding u64 slot by `static_cast<u64>`, a zero-extension. -/
def MakeSvcContext (s : JitState) : SvcContext :=
  { regs := fun i => s.regs i }

/-- Source `Jit32::ApplySvcContext`: each of the 16 u64 slots is narrowed back into
the corresponding guest u32 register by `static_cast<u32>`, truncating to the
low 32 bits. -/
def ApplySvcContext (svcCtx : SvcContext) (s : JitState) : JitState :=
  { s with regs := fun i => svcCtx.regs i % 2 ^ 32 }

/-- Source `Jit32::SvcHandler`: look up `swi`; when populated, build the syscall
context, run the handler on it, and apply the resulting context back to the
guest registers; otherwise throw `exception("Unimplemented SVC 0x{:X}", swi)`,
modelled as `Except.error swi`. -/
def SvcHandler (table : SvcTable) (s : JitState) (swi : Nat) : Except Nat JitState :=
  match table swi with
  | some f => .ok (ApplySvcContext (f (MakeSvcContext s)) s)
  | none => .error swi

/-! ## Execution driver -/

/-- Source `Jit32` bridge state outside the engine: the captured syscall number
`lastSwi` together with the engine state. -/
structure Jit32State where
  jit : JitState
  lastSwi : Nat

/-- Source `Jit32::CallSVC`: records the syscall number and signals an `Svc` halt. -/
def CallSVC (swi : Nat) (s : Jit32State) : Jit32State :=
  { jit := { s.jit with haltMask := requestHalt .Svc s.jit.haltMask }, lastSwi := swi }

/-- The observable outcome of one `Run` call: the bridge state afterwards, the
syscall number passed to the dispatcher (if any), and the halt reason recorded
for diagnostics (if any). -/
structure RunOutcome where
  state : Jit32State
  dispatchedSwi : Option Nat
  loggedReason : Option HaltReason

/-- Source `Jit32::Run`: the engine's run primitive is external; `hr` is the halt
reason it returned. `Run` clears that reason on the engine's halt bitmask, then
dispatches the captured syscall number when the reason is `Svc` (propagating an
unimplemented-syscall failure), and otherwise only logs the reason. -/
def Run (table : SvcTable) (hr : HaltReason) (s : Jit32State) : Except Nat RunOutcome :=
  let s1 : Jit32State := { s with jit := { s.jit with haltMask := clearHalt hr s.jit.haltMask } }
  match hr with
  | .Svc =>
      (SvcHandler table s1.jit s.lastSwi).map
        (fun j => ⟨{ s1 with jit := j }, some s.lastSwi, none⟩)
  | _ => .ok ⟨s1, none, some hr⟩

/-! ## Concrete fixtures for evaluating the theorems -/

/-- An all-zero engine state. -/
def zeroJit : JitState :=
  { regs := fun _ => 0, extRegs := fun _ => 0, cpsr := 0, fpscr := 0,
    haltMask := fun _ => false }

/-- An engine state whose register `i` holds `i`. -/
def smallJit : JitState :=
  { regs := fun i => i.val, extRegs := fun _ => 0, cpsr := 0, fpscr := 0,
    haltMask := fun _ => false }

/-- A syscall table with a single populated entry, number 1, whose handler
leaves its register window untouched. -/
def oneEntryTable : SvcTable := fun n => if n = 1 then some id else none

/-- A halt bitmask in which only the `Svc` bit is pending. -/
def mSvc : HaltMask := fun r => match r with | .Svc => true | _ => false

/-- The all-clear halt bitmask. -/
def mFalse : HaltMask := fun _ => false

/-! ## Claims -/

/-- C1: for every width W ∈ {8, 16, 32, 64} bits (`bits = log2(W/8) ≤ 3`) and
every in-window guest address, aligned or unaligned for W, writing a W-bit
value and then reading W bits back at the same address returns exactly that
value. -/
theorem write_read_roundtrip (mem : Mem) (bits vaddr v : Nat)
    (hbits : bits ≤ 3) (hv : v < 2 ^ (8 * 2 ^ bits)) :
    MemoryRead (MemoryWrite mem bits vaddr v) bits vaddr = v := by
  have hv' : v % 256 ^ 2 ^ bits = v := by
    apply Nat.mod_eq_of_lt
    have h2 : (2 : Nat) ^ (8 * 2 ^ bits) = 256 ^ 2 ^ bits := by
      rw [pow_mul]; norm_num
    rw [← h2]; exact hv
  by_cases h : vaddr &&& (1 <<< bits - 1) = 0
  · simp [MemoryRead, MemoryWrite, h, alignedIndexRead, alignedIndexWrite,
      readBytesLE_writeBytesLE, hv']
  · simp [MemoryRead, MemoryWrite, h, ReadUnaligned, WriteUnaligned,
      readBytesLE_writeBytesLE, hv']

/-- C1 witness: the spec's unaligned scenario, `Write16(0x1001, 0xABCD)` then
`Read16(0x1001)` returns `0xABCD`. -/
theorem write_read_roundtrip_witness :
    (1 : Nat) ≤ 3 ∧ (0xABCD : Nat) < 2 ^ (8 * 2 ^ 1) ∧
    MemoryRead (MemoryWrite (fun _ => 0) 1 0x1001 0xABCD) 1 0x1001 = 0xABCD :=
  ⟨by decide, by decide,
    write_read_roundtrip (fun _ => 0) 1 0x1001 0xABCD (by decide) (by decide)⟩

/-- C6: for every width, every value and every address —aligned or not— the
memory accessor produces exactly the byte-wise little-endian reference
semantics at that address, for reads and writes alike: the aligned
array-indexed path and the byte-copy path agree bit for bit, only the
data-movement strategy differs. -/
theorem memory_path_equiv (mem : Mem) (bits vaddr v : Nat) :
    MemoryRead mem bits vaddr = readBytesLE mem vaddr (2 ^ bits) ∧
    MemoryWrite mem bits vaddr v = writeBytesLE mem vaddr (2 ^ bits) v := by
  constructor
  · by_cases h : vaddr &&& (1 <<< bits - 1) = 0
    · simp only [MemoryRead, h, if_true, alignedIndexRead]
      rw [aligned_addr_eq vaddr bits h]
    · simp [MemoryRead, h, ReadUnaligned]
  · by_cases h : vaddr &&& (1 <<< bits - 1) = 0
    · simp only [MemoryWrite, h, if_true, alignedIndexWrite]
      rw [aligned_addr_eq vaddr bits h]
    · simp [MemoryWrite, h, WriteUnaligned]

/-- C4: saving the register context and immediately restoring from that same
snapshot leaves the engine state —in particular all four register-context
fields— identical to its pre-save value, and `SaveContext` copies the four
fields verbatim (it is a pure copy that never fails). -/
theorem save_restore_roundtrip (s : JitState) :
    RestoreContext (SaveContext s) s = s ∧
    SaveContext s = ⟨s.regs, s.extRegs, s.cpsr, s.fpscr⟩ := by
  obtain ⟨r, e, c, f, m⟩ := s
  exact ⟨rfl, rfl⟩

/-- C8: `GetPC`/`GetSP` return exactly what indexed access at 15 and 13
returns, and `SetPC`/`SetSP` produce exactly the state that indexed stores at
15 and 13 produce: the named accessors and indexed access share one source of
truth. -/
theorem named_accessors_one_source_of_truth (s : JitState) (v : Nat) :
    GetPC s = GetRegister s 15 ∧ GetSP s = GetRegister s 13 ∧
    SetPC v s = SetRegister 15 v s ∧ SetSP v s = SetRegister 13 v s :=
  ⟨rfl, rfl, rfl, rfl⟩

/-- C2: for every syscall number with no populated table entry —including every
number outside the populated range, which the table models as an empty lookup—
dispatch fails with the unimplemented-syscall condition identifying that
number; never a crash and never a silent no-op. -/
theorem svcHandler_unimplemented (table : SvcTable) (s : JitState) (swi : Nat)
    (h : table swi = none) :
    SvcHandler table s swi = .error swi := by
  simp [SvcHandler, h]

/-- C2 witness: dispatching number 99 against a table with no populated entry
yields the unimplemented-syscall condition naming 99. -/
theorem svcHandler_unimplemented_witness :
    (fun _ => none : SvcTable) 99 = none ∧
    SvcHandler (fun _ => none) zeroJit 99 = .error 99 :=
  ⟨rfl, svcHandler_unimplemented (fun _ => none) zeroJit 99 rfl⟩

/-- C3: dispatching a populated syscall number builds the syscall context by
zero-extending each of the guest's 32-bit general registers into its 64-bit
slot, invokes the handler on that context, then writes each resulting 64-bit
slot back into the corresponding guest register truncated to its low 32 bits;
all 16 registers —the full general-purpose register count— are marshalled in
each direction, and no other engine state changes. -/
theorem svcHandler_marshalling (table : SvcTable) (s : JitState) (swi : Nat)
    (f : SvcContext → SvcContext) (h : table swi = some f) :
    (∀ i : Fin 16, (MakeSvcContext s).regs i = s.regs i) ∧
    ∃ s2, SvcHandler table s swi = .ok s2 ∧
      (∀ i : Fin 16, s2.regs i = (f (MakeSvcContext s)).regs i % 2 ^ 32) ∧
      s2.extRegs = s.extRegs ∧ s2.cpsr = s.cpsr ∧ s2.fpscr = s.fpscr ∧
      s2.haltMask = s.haltMask := by
  refine ⟨fun i => rfl, ApplySvcContext (f (MakeSvcContext s)) s, ?_,
    fun i => rfl, rfl, rfl, rfl, rfl⟩
  simp [SvcHandler, h]

/-- C3 witness: dispatching the populated number 1 of `oneEntryTable` against
the all-zero engine state. -/
theorem svcHandler_marshalling_witness :
    oneEntryTable 1 = some id ∧
    ((∀ i : Fin 16, (MakeSvcContext zeroJit).regs i = zeroJit.regs i) ∧
      ∃ s2, SvcHandler oneEntryTable zeroJit 1 = .ok s2 ∧
        (∀ i : Fin 16, s2.regs i = (id (MakeSvcContext zeroJit)).regs i % 2 ^ 32) ∧
        s2.extRegs = zeroJit.extRegs ∧ s2.cpsr = zeroJit.cpsr ∧
        s2.fpscr = zeroJit.fpscr ∧ s2.haltMask = zeroJit.haltMask) :=
  ⟨rfl, svcHandler_marshalling oneEntryTable zeroJit 1 id rfl⟩

/-- C10: applying an unmodified context produced by `MakeSvcContext` back
through `ApplySvcContext` restores the engine state exactly: truncation to 32
bits inverts the zero-extension to 64 bits, so a handler that leaves its
register window untouched leaves the guest register file untouched. -/
theorem make_apply_roundtrip (s : JitState) (h : ∀ i, s.regs i < 2 ^ 32) :
    ApplySvcContext (MakeSvcContext s) s = s := by
  obtain ⟨r, e, c, f, m⟩ := s
  simp only [ApplySvcContext, MakeSvcContext, JitState.mk.injEq, and_true,
    true_and, and_self]
  funext i
  exact Nat.mod_eq_of_lt (h i)

/-- C10 witness: the round trip at a concrete register file holding `i` in
register `i`. -/
theorem make_apply_roundtrip_witness :
    (∀ i, smallJit.regs i < 2 ^ 32) ∧
    ApplySvcContext (MakeSvcContext smallJit) smallJit = smallJit :=
  ⟨by decide, make_apply_roundtrip smallJit (by decide)⟩

/-- Handler for the C9 scenario: `r0 := r0 + r1` on the syscall register
window. -/
def addHandler : SvcContext → SvcContext :=
  fun ctx => { regs := Function.update ctx.regs 0 (ctx.regs 0 + ctx.regs 1) }

/-- Syscall table for the C9 scenario: number `0x01` maps to `addHandler`. -/
def scenarioTable : SvcTable := fun n => if n = 1 then some addHandler else none

/-- Guest state for the C9 scenario: `r0 = 5`, `r1 = 7`, distinctive values in
the remaining registers. -/
def scenarioJit : JitState :=
  { regs := fun i => if i = 0 then 5 else if i = 1 then 7 else 100 + i.val,
    extRegs := fun _ => 0, cpsr := 0, fpscr := 0, haltMask := fun _ => false }

/-- C9: with `r0 = 5`, `r1 = 7` and syscall number `0x01` mapped to a handler
computing `r0 := r0 + r1`, dispatch succeeds, afterwards `r0` reads 12, and
every other guest general-purpose register (and the rest of the engine state)
is unchanged. -/
theorem dispatch_add_scenario :
    ∃ s2, SvcHandler scenarioTable scenarioJit 1 = .ok s2 ∧
      s2.regs 0 = 12 ∧
      (∀ i : Fin 16, i ≠ 0 → s2.regs i = scenarioJit.regs i) ∧
      s2.extRegs = scenarioJit.extRegs ∧ s2.cpsr = scenarioJit.cpsr ∧
      s2.fpscr = scenarioJit.fpscr ∧ s2.haltMask = scenarioJit.haltMask := by
  refine ⟨ApplySvcContext (addHandler (MakeSvcContext scenarioJit)) scenarioJit,
    rfl, ?_, ?_, rfl, rfl, rfl, rfl⟩
  · decide
  · decide

/-- C5: `Run` first clears exactly the halt reason the engine returned (that
reason's bit goes to false, every other bit is untouched), then invokes the
syscall dispatcher with the previously captured syscall number if and only if
the reason is `Svc` (propagating the dispatcher's failure); for every other
reason it only records the reason for diagnostics and returns with the rest of
the state untouched. -/
theorem run_clears_then_dispatches (table : SvcTable) (hr : HaltReason)
    (s : Jit32State) :
    (∀ r, clearHalt hr s.jit.haltMask r
        = if r = hr then false else s.jit.haltMask r) ∧
    (∀ out, Run table hr s = .ok out →
        out.state.jit.haltMask = clearHalt hr s.jit.haltMask ∧
        out.state.jit.extRegs = s.jit.extRegs ∧
        out.state.jit.cpsr = s.jit.cpsr ∧
        out.state.jit.fpscr = s.jit.fpscr ∧
        out.state.lastSwi = s.lastSwi ∧
        out.dispatchedSwi = (if hr = .Svc then some s.lastSwi else none) ∧
        out.loggedReason = (if hr = .Svc then none else some hr)) ∧
    (hr ≠ .Svc → Run table hr s =
        .ok ⟨{ s with jit := { s.jit with haltMask := clearHalt hr s.jit.haltMask } },
          none, some hr⟩) ∧
    (hr = .Svc → Run table hr s =
        (SvcHandler table { s.jit with haltMask := clearHalt hr s.jit.haltMask }
            s.lastSwi).map
          (fun j => ⟨⟨j, s.lastSwi⟩, some s.lastSwi, none⟩)) := by
  refine ⟨fun r => rfl, ?_, ?_, ?_⟩
  · intro out hout
    cases hr <;>
      simp only [Run, SvcHandler] at hout
    case Svc =>
      rcases htab : table s.lastSwi with _ | f <;> rw [htab] at hout <;>
        simp only [Except.map] at hout
      · cases hout
      · cases hout
        exact ⟨rfl, rfl, rfl, rfl, rfl, rfl, rfl⟩
    all_goals (cases hout; exact ⟨rfl, rfl, rfl, rfl, rfl, rfl, rfl⟩)
  · intro h
    cases hr <;> simp only [Run] <;> first | rfl | exact absurd rfl h
  · intro h
    subst h
    rfl

/-- C7 counterexample: start from a bitmask in which reason `Svc` is already
pending (`mSvc`). After `RequestHalt Svc; RequestHalt Step; ClearHalt Svc` the
`Svc` bit reads `false`, while its pre-request value —both in the original
bitmask `mSvc` and with the unrelated `Step` requested on top,
`requestHalt Step mSvc`— is `true`: the sequence does not return the bitmask to
exactly its pre-request value when the cleared reason was already pending. -/
theorem clearHalt_roundtrip_cex :
    (clearHalt .Svc (requestHalt .Step (requestHalt .Svc mSvc)) .Svc,
      requestHalt .Step mSvc .Svc, mSvc .Svc) = (false, true, true) := by
  decide

/-- C7 (amended): provided reason `r` is not already pending in the pre-request
bitmask, `RequestHalt r` followed by `ClearHalt r` returns the bitmask to
exactly its pre-request value even when an unrelated `RequestHalt r2`
(`r2 ≠ r`) happens in between; and `ClearHalt r` always removes exactly the
bit of `r`, leaving every other pending reason intact. -/
theorem requestHalt_clearHalt_roundtrip (m : HaltMask) (r r2 : HaltReason)
    (hm : m r = false) (hne : r2 ≠ r) :
    clearHalt r (requestHalt r2 (requestHalt r m)) = requestHalt r2 m ∧
    clearHalt r (requestHalt r2 (requestHalt r m)) r = false ∧
    ∀ x, clearHalt r (requestHalt r2 (requestHalt r m)) x
        = if x = r then false else requestHalt r2 (requestHalt r m) x := by
  refine ⟨funext fun x => ?_, ?_, fun x => rfl⟩
  · by_cases hx : x = r
    · subst hx
      simp [clearHalt, requestHalt, hm, Ne.symm hne]
    · simp [clearHalt, requestHalt, hx]
  · simp [clearHalt]

/-- C7 witness: the amended round trip at the all-clear bitmask with `r = Svc`
and `r2 = Step`. -/
theorem requestHalt_clearHalt_roundtrip_witness :
    mFalse HaltReason.Svc = false ∧ HaltReason.Step ≠ HaltReason.Svc ∧
    clearHalt .Svc (requestHalt .Step (requestHalt .Svc mFalse))
      = requestHalt .Step mFalse :=
  ⟨rfl, by decide,
    (requestHalt_clearHalt_roundtrip mFalse .Svc .Step rfl (by decide)).1⟩

end Strato
